import Mathlib

/-!
# Verification of the GitLab → GitHub migration script (`src/migrate.py`)

This file is a shallow embedding of `migrate.py`.  External effects (HTTP
responses, subprocess exit statuses, filesystem state, ledger-file writes)
are supplied as explicit oracle inputs; the embedded functions mirror the
script's control flow over those inputs and additionally record an event
trace so that call-order properties can be stated.

Mapping to the source:
* `pyStrip`                    — Python `str.strip()` (ASCII whitespace).
* `load_completed_migrations`  — lines 35–40.
* `log_completed_migration`    — lines 42–45.
* `get_gitlab_projects`        — lines 47–68 (pagination loop).
* `create_github_repo`         — lines 70–94 (probe + create).
* `transfer_repository`        — lines 96–151 (clone / filter / push).
* `processProject`, `runLoop`, `main` — lines 153–212.
-/

/-- Characters removed by Python `str.strip()` with no argument:
space, tab, newline, carriage return, vertical tab, form feed. -/
def isPySpace (c : Char) : Bool :=
  c = ' ' || c = '\t' || c = '\n' || c = '\r' || c = Char.ofNat 11 || c = Char.ofNat 12

/-- Python `str.strip()`: drop leading and trailing whitespace characters. -/
def pyStrip (s : String) : String :=
  String.mk (((s.data.dropWhile isPySpace).reverse.dropWhile isPySpace).reverse)

/-- Python string interpolation of a possibly-absent value: `f"{None}"`
renders as the string `"None"`.  Models interpolating `os.getenv` results
that may be `None`. -/
def pyFmtOpt : Option String → String
  | none => "None"
  | some s => s

/-- The script's configuration surface: the four `os.getenv` reads
(lines 11–14, each possibly absent) and the two script constants
(lines 18 and 21). -/
structure Config where
  gitlabUrl : Option String
  gitlabPrivateToken : Option String
  githubUsername : Option String
  githubToken : Option String
  createPrivateRepos : Bool
  maxFileSizeMB : Nat
  deriving DecidableEq

/-- A GitLab project descriptor as consumed by `main`: the fields
`path`, `description` and `ssh_url_to_repo` of the listing JSON. -/
structure Project where
  path : String
  description : String
  sshUrlToRepo : String
  deriving DecidableEq

/-- Lines 35–40.  The ledger file is modelled as the list of lines Python
iteration would yield (each line still carrying its trailing newline); an
absent file is the empty list.  `load_completed_migrations` builds
`set(line.strip() for line in f)`; we keep the stripped names as a list,
with membership via `List.contains`. -/
def load_completed_migrations (ledgerFile : List String) : List String :=
  ledgerFile.map pyStrip

/-- Lines 42–45: append `f"{project_name}\n"` to the ledger file. -/
def log_completed_migration (ledgerFile : List String) (projectName : String) : List String :=
  ledgerFile ++ [projectName ++ "\n"]

/-- One page response of the GitLab listing API: either the request raised
(`requests.exceptions.RequestException`, line 64) or it returned a JSON
array of projects. -/
inductive PageResult
  | err
  | page (ps : List Project)
  deriving DecidableEq

/-- Pagination loop of lines 53–66: accumulate pages until an empty page
(line 61) or an error (line 64, which discards everything and returns
`None`).  An exhausted oracle behaves like an empty page. -/
def getGitlabProjectsLoop : List PageResult → List Project → Option (List Project)
  | [], acc => some acc
  | .err :: _, _ => none
  | .page [] :: _, acc => some acc
  | .page ps :: rest, acc => getGitlabProjectsLoop rest (acc ++ ps)

/-- Lines 47–68: `get_gitlab_projects`, starting from an empty accumulator. -/
def get_gitlab_projects (pages : List PageResult) : Option (List Project) :=
  getGitlabProjectsLoop pages []

/-- The GET probe of line 75.  `exc` models the request itself raising
(transport error) — that call is NOT inside any `try`, so the exception
propagates out of `create_github_repo`.  Otherwise `status` is the HTTP
status and `cloneUrl` the body's `clone_url` (read when status is 200). -/
structure ProbeResult where
  exc : Bool
  status : Nat
  cloneUrl : String
  deriving DecidableEq

/-- The POST of line 84 (only reached when the probe returned 404).
`exc` models `requests.post` raising; `raise_for_status` (line 85) turns
any `status ≥ 400` into a caught exception as well.  `cloneUrl` is the
created repository's `clone_url`. -/
structure CreateResult where
  exc : Bool
  status : Nat
  cloneUrl : String
  deriving DecidableEq

/-- Result of `create_github_repo` as observed by `main`. -/
inductive ResolveOutcome
  | uncaughtException
  | url (cloneUrl : String)
  | failed
  deriving DecidableEq

/-- Lines 70–94.  Probe status 200 → return the existing repository's
clone URL; 404 → create, returning the new clone URL, or `None` when the
POST raises or `raise_for_status` fires (this includes a 422
"name already exists" response); any other probe status → `None`
(lines 92–94).  A probe transport error escapes the function uncaught. -/
def create_github_repo (probe : ProbeResult) (create : CreateResult) : ResolveOutcome :=
  if probe.exc then .uncaughtException
  else if probe.status = 200 then .url probe.cloneUrl
  else if probe.status = 404 then
    if create.exc || 400 ≤ create.status then .failed else .url create.cloneUrl
  else .failed

/-- Git commands issued by the transporter.  The `cloneMirror` and
`pushMirror` constructors exist so that "performs a mirror transfer" is
expressible; `transfer_repository` never emits them. -/
inductive GitCmd
  | clone (url dir : String)
  | cloneMirror (url dir : String)
  | filterRepo (arg : String)
  | remoteSetUrl (url : String)
  | pushAll
  | pushTags
  | pushMirror
  deriving DecidableEq

/-- Outcomes of the external subprocess calls made by one transfer.
`cloneLeavesDir` models `git clone`'s behaviour on failure: git may or may
not leave the target directory behind (e.g. a checkout failure after a
successful fetch leaves it); the script does not control this. -/
structure TransferOracle where
  cloneOk : Bool
  cloneLeavesDir : Bool
  filterOk : Bool
  setUrlOk : Bool
  pushAllOk : Bool
  pushTagsOk : Bool
  deriving DecidableEq

/-- What one call of `transfer_repository` did: its boolean return value,
whether the local working directory exists when it returns, whether a
pre-existing working directory was forcibly removed before cloning
(lines 102–104, with the `handle_remove_readonly` handler), and the git
commands issued in order. -/
structure TransferResult where
  success : Bool
  dirExists : Bool
  preRemoved : Bool
  cmds : List GitCmd
  deriving DecidableEq

/-- Line 134–135: embed username and token into the destination clone URL. -/
def authenticatedGithubUrl (cfg : Config) (githubCloneUrl : String) : String :=
  githubCloneUrl.replace "https://"
    ("https://" ++ pyFmtOpt cfg.githubUsername ++ ":" ++ pyFmtOpt cfg.githubToken ++ "@")

/-- Lines 96–151.  Pre-clean any existing working directory; clone (a
failure returns `False` with no cleanup of whatever the failed clone left,
lines 112–114); filter (failure → chdir back, rmtree, `False`,
lines 126–130); set-url / push --all / push --tags (any failure in the
`try` of lines 133–140 → chdir back, rmtree, `False`); success → rmtree
and `True` (lines 147–151). -/
def transfer_repository (cfg : Config) (projectName gitlabSshUrl githubCloneUrl : String)
    (preExistingDir : Bool) (o : TransferOracle) : TransferResult :=
  let preRemoved := preExistingDir
  let cloneCmd := GitCmd.clone gitlabSshUrl projectName
  if !o.cloneOk then
    { success := false, dirExists := o.cloneLeavesDir, preRemoved, cmds := [cloneCmd] }
  else
    let filterCmd := GitCmd.filterRepo (toString cfg.maxFileSizeMB ++ "M")
    if !o.filterOk then
      { success := false, dirExists := false, preRemoved, cmds := [cloneCmd, filterCmd] }
    else
      let setUrlCmd := GitCmd.remoteSetUrl (authenticatedGithubUrl cfg githubCloneUrl)
      if !o.setUrlOk then
        { success := false, dirExists := false, preRemoved,
          cmds := [cloneCmd, filterCmd, setUrlCmd] }
      else if !o.pushAllOk then
        { success := false, dirExists := false, preRemoved,
          cmds := [cloneCmd, filterCmd, setUrlCmd, .pushAll] }
      else if !o.pushTagsOk then
        { success := false, dirExists := false, preRemoved,
          cmds := [cloneCmd, filterCmd, setUrlCmd, .pushAll, .pushTags] }
      else
        { success := true, dirExists := false, preRemoved,
          cmds := [cloneCmd, filterCmd, setUrlCmd, .pushAll, .pushTags] }

/-- Does a command list contain a mirror-form clone or push? -/
def usesMirror (cmds : List GitCmd) : Bool :=
  cmds.any fun c =>
    match c with
    | .cloneMirror _ _ => true
    | .pushMirror => true
    | _ => false

/-- Observable per-project events of one batch run, in order:
a ledger skip, a call into `create_github_repo`, a call into
`transfer_repository` with its boolean result, a ledger append. -/
inductive Event
  | skip (name : String)
  | resolveCall (name : String)
  | transferCall (name : String) (ok : Bool)
  | ledgerAppend (name : String)
  deriving DecidableEq

/-- The mutable state of one `main` run: the ledger file on disk and the
loop's bookkeeping (lines 173–175) plus the event trace. -/
structure RunState where
  ledgerFile : List String
  succeeded : Nat
  failed : List String
  skipped : Nat
  events : List Event
  deriving DecidableEq

/-- The two uncaught exceptions that can escape the per-project loop:
a probe transport error (line 75) and a ledger-append failure (line 44). -/
inductive CrashKind
  | probeException
  | ledgerWriteError
  deriving DecidableEq

/-- All external outcomes affecting one project's processing. -/
structure ProjectOracle where
  probe : ProbeResult
  create : CreateResult
  preExistingDir : Bool
  transfer : TransferOracle
  appendOk : Bool
  deriving DecidableEq

/-- Lines 177–202, one iteration of the `for` loop.  A raised exception
is modelled as `Except.error` carrying the state at the moment it escapes
(the `successful_migrations += 1` of line 199 precedes the append of
line 200, so it is visible in the ledger-crash state). -/
def processProject (cfg : Config) (completed : List String) (p : Project)
    (o : ProjectOracle) (st : RunState) : Except (CrashKind × RunState) RunState :=
  if completed.contains p.path then
    .ok { st with skipped := st.skipped + 1, events := st.events ++ [.skip p.path] }
  else
    match create_github_repo o.probe o.create with
    | .uncaughtException =>
        .error (.probeException, { st with events := st.events ++ [.resolveCall p.path] })
    | .failed =>
        .ok { st with failed := st.failed ++ [p.path],
                      events := st.events ++ [.resolveCall p.path] }
    | .url githubCloneUrl =>
        let t := transfer_repository cfg p.path p.sshUrlToRepo githubCloneUrl
                   o.preExistingDir o.transfer
        if t.success then
          if o.appendOk then
            .ok { st with succeeded := st.succeeded + 1,
                          ledgerFile := log_completed_migration st.ledgerFile p.path,
                          events := st.events ++
                            [.resolveCall p.path, .transferCall p.path true,
                             .ledgerAppend p.path] }
          else
            .error (.ledgerWriteError,
              { st with succeeded := st.succeeded + 1,
                        events := st.events ++
                          [.resolveCall p.path, .transferCall p.path true] })
        else
          .ok { st with failed := st.failed ++ [p.path],
                        events := st.events ++
                          [.resolveCall p.path, .transferCall p.path false] }

/-- The whole `for` loop of lines 177–202; the `i`-th remaining project
uses oracle `orc i`.  An escaping exception aborts the loop. -/
def runLoop (cfg : Config) (completed : List String) :
    List Project → (Nat → ProjectOracle) → RunState → Except (CrashKind × RunState) RunState
  | [], _, st => .ok st
  | p :: rest, orc, st =>
    match processProject cfg completed p (orc 0) st with
    | .error e => .error e
    | .ok st' => runLoop cfg completed rest (fun i => orc (i + 1)) st'

/-- The observable result of `main` (lines 153–212): the fatal
`git-filter-repo` check (lines 156–159), the shared exit for a listing
error or an empty listing (`if not gitlab_projects`, lines 169–171), an
uncaught exception escaping the loop, or normal completion with the final
state whose counters the summary of lines 204–212 reports. -/
inductive MainResult
  | fatalNoFilterRepo
  | exitedNoProjects
  | crashed (k : CrashKind) (st : RunState)
  | completed (st : RunState)
  deriving DecidableEq

/-- Lines 153–212. -/
def migrateMain (cfg : Config) (filterRepoInstalled : Bool) (ledgerFile0 : List String)
    (pages : List PageResult) (orc : Nat → ProjectOracle) : MainResult :=
  if !filterRepoInstalled then .fatalNoFilterRepo
  else
    let completed := load_completed_migrations ledgerFile0
    match get_gitlab_projects pages with
    | none => .exitedNoProjects
    | some ps =>
      if ps.isEmpty then .exitedNoProjects
      else
        let st0 : RunState :=
          { ledgerFile := ledgerFile0, succeeded := 0, failed := [], skipped := 0, events := [] }
        match runLoop cfg completed ps orc st0 with
        | .error (k, st) => .crashed k st
        | .ok st => .completed st

/-- The run state a `MainResult` carries, with the untouched initial state
for the two early exits (no loop iteration ran, so the ledger file and all
counters are still initial). -/
def resultState (ledgerFile0 : List String) : MainResult → RunState
  | .crashed _ st => st
  | .completed st => st
  | _ => { ledgerFile := ledgerFile0, succeeded := 0, failed := [], skipped := 0,
           events := [] }

/-- Names appended to the ledger during a trace. -/
def appendedNames (l : List Event) : List String :=
  l.filterMap fun e =>
    match e with
    | .ledgerAppend n => some n
    | _ => none

/-- The projects a trace touched, in order: each project contributes
exactly one `skip` or one `resolveCall` when the loop reaches it. -/
def processedNames (l : List Event) : List String :=
  l.filterMap fun e =>
    match e with
    | .skip n => some n
    | .resolveCall n => some n
    | _ => none

/-- An event is admissible after `prev`: a ledger append is admissible
only right after a successful transfer of the same project; every other
event is always admissible. -/
def appendCheck (prev : Option Event) (e : Event) : Bool :=
  match e with
  | .ledgerAppend n =>
    match prev with
    | some (.transferCall m true) => n == m
    | _ => false
  | _ => true

/-- Scan of a trace checking that every `ledgerAppend n` is immediately
preceded by `transferCall n true`; `prev` is the event before the scanned
portion. -/
def appendsOkFrom (prev : Option Event) : List Event → Bool
  | [] => true
  | e :: rest => appendCheck prev e && appendsOkFrom (some e) rest

/-- Every ledger append in the trace comes immediately after a successful
transfer of the same project. -/
def appendsOk (l : List Event) : Bool :=
  appendsOkFrom none l

/-- Last element of a list, with `prev` as the answer for an empty list. -/
def lastEvent (prev : Option Event) : List Event → Option Event
  | [] => prev
  | e :: rest => lastEvent (some e) rest

/-- The run state a loop result carries, whether the loop finished or an
exception escaped part-way. -/
def finalState : Except (CrashKind × RunState) RunState → RunState
  | .error (_, st) => st
  | .ok st => st

/-! ## Concrete sample inputs, used to instantiate the theorems -/

/-- A configuration with every environment value present. -/
def cfgSample : Config :=
  { gitlabUrl := some "https://gitlab.example.com"
    gitlabPrivateToken := some "glpat-x"
    githubUsername := some "user"
    githubToken := some "ghp-x"
    createPrivateRepos := true
    maxFileSizeMB := 99 }

/-- A configuration with every environment value absent (`os.getenv` → `None`). -/
def cfgMissing : Config :=
  { gitlabUrl := none, gitlabPrivateToken := none, githubUsername := none,
    githubToken := none, createPrivateRepos := true, maxFileSizeMB := 99 }

def pAlpha : Project :=
  { path := "alpha", description := "", sshUrlToRepo := "git@gitlab.example.com:u/alpha.git" }

def pBeta : Project :=
  { path := "beta", description := "", sshUrlToRepo := "git@gitlab.example.com:u/beta.git" }

/-- A transfer in which every subprocess call succeeds. -/
def transferAllOk : TransferOracle :=
  { cloneOk := true, cloneLeavesDir := false, filterOk := true, setUrlOk := true,
    pushAllOk := true, pushTagsOk := true }

/-- A project for which the probe returns 404, creation succeeds, every
git step succeeds and the ledger append succeeds. -/
def oracleAllOk : ProjectOracle :=
  { probe := { exc := false, status := 404, cloneUrl := "" }
    create := { exc := false, status := 201, cloneUrl := "https://github.com/user/alpha.git" }
    preExistingDir := false
    transfer := transferAllOk
    appendOk := true }

/-- Like `oracleAllOk` but the ledger append raises. -/
def oracleLedgerFail : ProjectOracle :=
  { oracleAllOk with appendOk := false }

/-- A project whose destination probe raises a transport error. -/
def oracleProbeExc : ProjectOracle :=
  { oracleAllOk with probe := { exc := true, status := 0, cloneUrl := "" } }

/-- A project whose destination probe returns a non-200, non-404 status. -/
def oracleProbe401 : ProjectOracle :=
  { oracleAllOk with probe := { exc := false, status := 401, cloneUrl := "" } }

/-- Probe says absent, but the creation POST comes back 422
(name already taken, detected only at creation time). -/
def oracleCreate422 : ProjectOracle :=
  { oracleAllOk with
    create := { exc := false, status := 422, cloneUrl := "https://github.com/user/alpha.git" } }

/-! ## Trace algebra -/

theorem appendsOkFrom_append (a b : List Event) (prev : Option Event) :
    appendsOkFrom prev (a ++ b)
      = (appendsOkFrom prev a && appendsOkFrom (lastEvent prev a) b) := by
  induction a generalizing prev with
  | nil => simp [appendsOkFrom, lastEvent]
  | cons e rest ih =>
    simp [appendsOkFrom, lastEvent, ih, Bool.and_assoc]

theorem lastEvent_append (a b : List Event) (prev : Option Event) :
    lastEvent prev (a ++ b) = lastEvent (lastEvent prev a) b := by
  induction a generalizing prev with
  | nil => simp [lastEvent]
  | cons e rest ih => simp [lastEvent, ih]

theorem appendedNames_append (a b : List Event) :
    appendedNames (a ++ b) = appendedNames a ++ appendedNames b := by
  simp [appendedNames, List.filterMap_append]

theorem processedNames_append (a b : List Event) :
    processedNames (a ++ b) = processedNames a ++ processedNames b := by
  simp [processedNames, List.filterMap_append]

/-! ## Per-step and whole-loop trace invariants -/

/-- One loop iteration extends the trace by one block, extends the ledger
file exactly by the (possibly empty) list of names it appended, extends
the failed list, and every append in the block follows a successful
transfer of the same project. -/
theorem processProject_trace (cfg : Config) (completed : List String) (p : Project)
    (o : ProjectOracle) (st : RunState) :
    ∃ d : List Event,
      (finalState (processProject cfg completed p o st)).events = st.events ++ d ∧
      (finalState (processProject cfg completed p o st)).ledgerFile
        = st.ledgerFile ++ (appendedNames d).map (fun n => n ++ "\n") ∧
      (∃ t, (finalState (processProject cfg completed p o st)).failed = st.failed ++ t) ∧
      (∀ prev, appendsOkFrom prev d = true) := by
  unfold processProject
  by_cases hc : p.path ∈ completed
  · refine ⟨[.skip p.path], ?_, ?_, ⟨[], ?_⟩, ?_⟩ <;>
      simp [hc, finalState, appendedNames, appendsOkFrom, appendCheck]
  · rcases hcr : create_github_repo o.probe o.create with _ | githubCloneUrl | _
    · refine ⟨[.resolveCall p.path], ?_, ?_, ⟨[], ?_⟩, ?_⟩ <;>
        simp [hc, hcr, finalState, appendedNames, appendsOkFrom, appendCheck]
    · by_cases hts : (transfer_repository cfg p.path p.sshUrlToRepo githubCloneUrl
          o.preExistingDir o.transfer).success = true
      · by_cases hao : o.appendOk = true
        · refine ⟨[.resolveCall p.path, .transferCall p.path true, .ledgerAppend p.path],
            ?_, ?_, ⟨[], ?_⟩, ?_⟩ <;>
            simp [hc, hcr, hts, hao, finalState, appendedNames, appendsOkFrom, appendCheck,
              log_completed_migration]
        · refine ⟨[.resolveCall p.path, .transferCall p.path true], ?_, ?_, ⟨[], ?_⟩, ?_⟩ <;>
            simp [hc, hcr, hts, hao, finalState, appendedNames, appendsOkFrom, appendCheck]
      · refine ⟨[.resolveCall p.path, .transferCall p.path false], ?_, ?_, ⟨[p.path], ?_⟩, ?_⟩ <;>
          simp [hc, hcr, hts, finalState, appendedNames, appendsOkFrom, appendCheck]
    · refine ⟨[.resolveCall p.path], ?_, ?_, ⟨[p.path], ?_⟩, ?_⟩ <;>
        simp [hc, hcr, finalState, appendedNames, appendsOkFrom, appendCheck]

/-- The loop invariant behind ledger monotonicity: whatever the oracle
does, a run extends the trace by a suffix `d`, the ledger file grows by
exactly the names appended in `d` (one line each, never pruned or
rewritten), the failed list only grows, and every ledger append in `d`
immediately follows a successful transfer of the same project. -/
theorem runLoop_trace (cfg : Config) (completed : List String) :
    ∀ (ps : List Project) (orc : Nat → ProjectOracle) (st : RunState),
    ∃ d : List Event,
      (finalState (runLoop cfg completed ps orc st)).events = st.events ++ d ∧
      (finalState (runLoop cfg completed ps orc st)).ledgerFile
        = st.ledgerFile ++ (appendedNames d).map (fun n => n ++ "\n") ∧
      (∃ t, (finalState (runLoop cfg completed ps orc st)).failed = st.failed ++ t) ∧
      (∀ prev, appendsOkFrom prev d = true) := by
  intro ps
  induction ps with
  | nil =>
    intro orc st
    refine ⟨[], ?_, ?_, ⟨[], ?_⟩, ?_⟩ <;>
      simp [runLoop, finalState, appendedNames, appendsOkFrom]
  | cons p rest ih =>
    intro orc st
    obtain ⟨d₁, he₁, hl₁, ⟨t₁, hf₁⟩, ha₁⟩ := processProject_trace cfg completed p (orc 0) st
    rcases hpp : processProject cfg completed p (orc 0) st with ⟨k, stE⟩ | st'
    · rw [hpp] at he₁ hl₁ hf₁
      simp only [finalState] at he₁ hl₁ hf₁
      refine ⟨d₁, ?_, ?_, ⟨t₁, ?_⟩, ha₁⟩ <;> simp [runLoop, hpp, finalState, he₁, hl₁, hf₁]
    · rw [hpp] at he₁ hl₁ hf₁
      simp only [finalState] at he₁ hl₁ hf₁
      obtain ⟨d₂, he₂, hl₂, ⟨t₂, hf₂⟩, ha₂⟩ := ih (fun i => orc (i + 1)) st'
      refine ⟨d₁ ++ d₂, ?_, ?_, ⟨t₁ ++ t₂, ?_⟩, ?_⟩
      · simp only [runLoop, hpp]
        rw [he₂, he₁, List.append_assoc]
      · simp only [runLoop, hpp]
        rw [hl₂, hl₁, appendedNames_append, List.map_append, List.append_assoc]
      · simp only [runLoop, hpp]
        rw [hf₂, hf₁, List.append_assoc]
      · intro prev
        rw [appendsOkFrom_append, ha₁ prev, ha₂ (lastEvent prev d₁), Bool.and_self]

/-- Claim C1. The Migration Ledger is strictly additive: over any run of the
batch, the final ledger file is the initial file plus exactly one appended
line per `ledgerAppend` event, every `ledgerAppend` event occurs
immediately after the transporter reported success for that exact project
in that run, and every line of the initial ledger is still present
afterwards (no name is removed or rewritten). -/
theorem ledger_strictly_additive (cfg : Config) (fi : Bool) (l0 : List String)
    (pages : List PageResult) (orc : Nat → ProjectOracle) :
    (resultState l0 (migrateMain cfg fi l0 pages orc)).ledgerFile
      = l0 ++ (appendedNames (resultState l0 (migrateMain cfg fi l0 pages orc)).events).map
          (fun n => n ++ "\n") ∧
    appendsOk (resultState l0 (migrateMain cfg fi l0 pages orc)).events = true ∧
    ∀ x ∈ l0, x ∈ (resultState l0 (migrateMain cfg fi l0 pages orc)).ledgerFile := by
  cases fi with
  | false =>
    simp [migrateMain, resultState, appendedNames, appendsOk, appendsOkFrom]
  | true =>
    rcases hg : get_gitlab_projects pages with _ | ps
    · simp [migrateMain, hg, resultState, appendedNames, appendsOk, appendsOkFrom]
    · by_cases hem : ps.isEmpty
      · simp [migrateMain, hg, hem, resultState, appendedNames, appendsOk, appendsOkFrom]
      · obtain ⟨d, he, hl, -, ha⟩ := runLoop_trace cfg (load_completed_migrations l0) ps orc
          { ledgerFile := l0, succeeded := 0, failed := [], skipped := 0, events := [] }
        rcases hr : runLoop cfg (load_completed_migrations l0) ps orc
            { ledgerFile := l0, succeeded := 0, failed := [], skipped := 0, events := [] }
          with ⟨k, stE⟩ | st'
        · rw [hr] at he hl
          simp only [finalState] at he hl
          simp only [migrateMain, hg, hem, Bool.not_true, Bool.false_eq_true, if_false,
            Bool.not_false, if_true, hr, resultState]
          refine ⟨?_, ?_, ?_⟩
          · rw [hl, he]; simp
          · rw [he]; simpa [appendsOk] using ha none
          · intro x hx; rw [hl]; exact List.mem_append_left _ hx
        · rw [hr] at he hl
          simp only [finalState] at he hl
          simp only [migrateMain, hg, hem, Bool.not_true, Bool.false_eq_true, if_false,
            Bool.not_false, if_true, hr, resultState]
          refine ⟨?_, ?_, ?_⟩
          · rw [hl, he]; simp
          · rw [he]; simpa [appendsOk] using ha none
          · intro x hx; rw [hl]; exact List.mem_append_left _ hx

/-- Each loop iteration that returns normally accounts for exactly one
project: exactly one of the skipped counter, the succeeded counter or the
failed list grows, by one, and the trace gains exactly one `skip` or
`resolveCall` for that project's name. -/
theorem processProject_ok_counts (cfg : Config) (completed : List String) (p : Project)
    (o : ProjectOracle) (st st' : RunState)
    (h : processProject cfg completed p o st = .ok st') :
    st'.skipped + st'.succeeded + st'.failed.length
      = st.skipped + st.succeeded + st.failed.length + 1 ∧
    processedNames st'.events = processedNames st.events ++ [p.path] := by
  unfold processProject at h
  by_cases hc : p.path ∈ completed
  · simp [hc] at h
    subst h
    refine ⟨by simp; omega, ?_⟩
    simp [processedNames, List.filterMap_append]
  · rcases hcr : create_github_repo o.probe o.create with _ | githubCloneUrl | _ <;> rw [hcr] at h
    · simp [hc] at h
    · by_cases hts : (transfer_repository cfg p.path p.sshUrlToRepo githubCloneUrl
          o.preExistingDir o.transfer).success = true
      · by_cases hao : o.appendOk = true
        · simp [hc, hts, hao] at h
          subst h
          refine ⟨by simp; omega, ?_⟩
          simp [processedNames, List.filterMap_append]
        · simp [hc, hts, hao] at h
      · simp [hc, hts] at h
        subst h
        refine ⟨by simp; omega, ?_⟩
        simp [processedNames, List.filterMap_append]
    · simp [hc] at h
      subst h
      refine ⟨by simp; omega, ?_⟩
      simp [processedNames, List.filterMap_append]

/-- Accounting over the whole loop: a normally-finishing run adds exactly
`ps.length` to the three outcome buckets combined and touches the projects
exactly once each, in enumeration order. -/
theorem runLoop_ok_counts (cfg : Config) (completed : List String) :
    ∀ (ps : List Project) (orc : Nat → ProjectOracle) (st st' : RunState),
    runLoop cfg completed ps orc st = .ok st' →
    st'.skipped + st'.succeeded + st'.failed.length
      = st.skipped + st.succeeded + st.failed.length + ps.length ∧
    processedNames st'.events = processedNames st.events ++ ps.map (fun p => p.path) := by
  intro ps
  induction ps with
  | nil =>
    intro orc st st' h
    simp only [runLoop, Except.ok.injEq] at h
    subst h
    simp
  | cons p rest ih =>
    intro orc st st' h
    simp only [runLoop] at h
    rcases hpp : processProject cfg completed p (orc 0) st with e | st₁ <;> rw [hpp] at h
    · cases h
    · obtain ⟨h1, h2⟩ := processProject_ok_counts cfg completed p (orc 0) st st₁ hpp
      obtain ⟨h3, h4⟩ := ih (fun i => orc (i + 1)) st₁ st' h
      refine ⟨by simp only [List.length_cons]; omega, ?_⟩
      rw [h4, h2]
      simp

/-- Claim C2. For every run that reaches its summary, over any enumerated
sequence of projects: each enumerated project is touched exactly once, in
enumeration order (appearing in the trace as its single `skip` or
`resolveCall`), and the reported counts satisfy
skipped + succeeded + failed = total enumerated. -/
theorem batch_partition (cfg : Config) (fi : Bool) (l0 : List String)
    (pages : List PageResult) (orc : Nat → ProjectOracle) (ps : List Project) (st : RunState)
    (hg : get_gitlab_projects pages = some ps)
    (hm : migrateMain cfg fi l0 pages orc = .completed st) :
    st.skipped + st.succeeded + st.failed.length = ps.length ∧
    processedNames st.events = ps.map (fun p => p.path) := by
  cases fi with
  | false => simp [migrateMain] at hm
  | true =>
    simp only [migrateMain, hg, Bool.not_true, Bool.false_eq_true, if_false] at hm
    by_cases hem : ps.isEmpty
    · simp [hem] at hm
    · simp only [hem, Bool.false_eq_true, if_false] at hm
      rcases hr : runLoop cfg (load_completed_migrations l0) ps orc
          { ledgerFile := l0, succeeded := 0, failed := [], skipped := 0, events := [] }
        with e | st' <;> rw [hr] at hm
      · rcases e with ⟨k, stE⟩; cases hm
      · simp only [MainResult.completed.injEq] at hm
        subst hm
        have := runLoop_ok_counts cfg (load_completed_migrations l0) ps orc
          { ledgerFile := l0, succeeded := 0, failed := [], skipped := 0, events := [] } st' hr
        simpa [processedNames] using this

/-- The final state of the one-project all-success sample run. -/
def stAlphaOk : RunState :=
  { ledgerFile := ["alpha\n"], succeeded := 1, failed := [], skipped := 0,
    events := [.resolveCall "alpha", .transferCall "alpha" true, .ledgerAppend "alpha"] }

/-- Witness for `batch_partition`: a concrete one-project run whose
summary partitions `1 = 0 + 1 + 0`. -/
theorem batch_partition_witness :
    stAlphaOk.skipped + stAlphaOk.succeeded + stAlphaOk.failed.length = 1 ∧
    processedNames stAlphaOk.events = ["alpha"] := by
  have h := batch_partition cfgSample true [] [.page [pAlpha]] (fun _ => oracleAllOk)
    [pAlpha] stAlphaOk (by decide) (by decide)
  simpa [pAlpha] using h

/-- If every enumerated project is already in the loaded completed set,
the loop only skips: no resolver or transporter call happens, nothing is
appended, and the skipped counter absorbs the whole enumeration. -/
theorem runLoop_all_skip (cfg : Config) (completed : List String) :
    ∀ (ps : List Project) (orc : Nat → ProjectOracle) (st : RunState),
    (∀ p ∈ ps, p.path ∈ completed) →
    runLoop cfg completed ps orc st = .ok
      { st with skipped := st.skipped + ps.length,
                events := st.events ++ ps.map (fun p => Event.skip p.path) } := by
  intro ps
  induction ps with
  | nil =>
    intro orc st h
    simp [runLoop]
  | cons p rest ih =>
    intro orc st h
    have hp : p.path ∈ completed := h p (List.mem_cons_self p rest)
    have hc : completed.contains p.path = true := by simp [hp]
    simp only [runLoop, processProject, hc, if_true]
    rw [ih (fun i => orc (i + 1)) _ (fun q hq => h q (List.mem_cons_of_mem p hq))]
    simp only [Except.ok.injEq, RunState.mk.injEq]
    exact ⟨trivial, trivial, trivial, by simp only [List.length_cons]; omega, by simp⟩

/-- Which of the three normal-return branches an iteration took, in terms
of its effect on the failed list and the ledger file. -/
theorem processProject_ok_cases (cfg : Config) (completed : List String) (p : Project)
    (o : ProjectOracle) (st st' : RunState)
    (h : processProject cfg completed p o st = .ok st') :
    (p.path ∈ completed ∧ st'.failed = st.failed ∧ st'.ledgerFile = st.ledgerFile)
    ∨ (st'.failed = st.failed ++ [p.path] ∧ st'.ledgerFile = st.ledgerFile)
    ∨ (st'.failed = st.failed ∧ st'.ledgerFile = st.ledgerFile ++ [p.path ++ "\n"]) := by
  unfold processProject at h
  by_cases hc : p.path ∈ completed
  · simp [hc] at h
    subst h
    exact .inl ⟨hc, rfl, rfl⟩
  · rcases hcr : create_github_repo o.probe o.create with _ | githubCloneUrl | _ <;> rw [hcr] at h
    · simp [hc] at h
    · by_cases hts : (transfer_repository cfg p.path p.sshUrlToRepo githubCloneUrl
          o.preExistingDir o.transfer).success = true
      · by_cases hao : o.appendOk = true
        · simp [hc, hts, hao] at h
          subst h
          exact .inr (.inr ⟨rfl, by simp [log_completed_migration]⟩)
        · simp [hc, hts, hao] at h
      · simp [hc, hts] at h
        subst h
        exact .inr (.inl ⟨rfl, rfl⟩)
    · simp [hc] at h
      subst h
      exact .inr (.inl ⟨rfl, rfl⟩)

/-- If a run finished normally and recorded no new failure, then every
enumerated project was either already in the loaded completed set or had
its name appended to the ledger file during the run. -/
theorem runLoop_no_failures_covers (cfg : Config) (completed : List String) :
    ∀ (ps : List Project) (orc : Nat → ProjectOracle) (st st' : RunState),
    runLoop cfg completed ps orc st = .ok st' →
    st'.failed = st.failed →
    ∀ p ∈ ps, p.path ∈ completed ∨ (p.path ++ "\n") ∈ st'.ledgerFile := by
  intro ps
  induction ps with
  | nil =>
    intro orc st st' h hf p hp
    cases hp
  | cons p rest ih =>
    intro orc st st' h hf q hq
    simp only [runLoop] at h
    rcases hpp : processProject cfg completed p (orc 0) st with e | st₁ <;> simp only [hpp] at h
    · cases h
    · obtain ⟨d, -, hl2, ⟨t2, hf2⟩, -⟩ :=
        runLoop_trace cfg completed rest (fun i => orc (i + 1)) st₁
      rw [h] at hl2 hf2
      simp only [finalState] at hl2 hf2
      rcases processProject_ok_cases cfg completed p (orc 0) st st₁ hpp with
        ⟨hmem, hf1, hl1⟩ | ⟨hf1, hl1⟩ | ⟨hf1, hl1⟩
      · rcases List.mem_cons.mp hq with rfl | hq'
        · exact .inl hmem
        · exact ih (fun i => orc (i + 1)) st₁ st' h (hf.trans hf1.symm) q hq'
      · exfalso
        rw [hf1] at hf2
        rw [hf] at hf2
        have := congrArg List.length hf2
        simp at this
      · rcases List.mem_cons.mp hq with rfl | hq'
        · refine .inr ?_
          rw [hl2, hl1]
          exact List.mem_append_left _ (List.mem_append_right _ (by simp))
        · exact ih (fun i => orc (i + 1)) st₁ st' h (hf.trans hf1.symm) q hq'

/-- Claim C3. Idempotence across runs: if a first run completes with no
failures over projects `ps` (whose names round-trip through a ledger
line), then a second run over the same enumeration — regardless of its
oracles — skips every project via the ledger: zero newly-succeeded
migrations, no resolver or transporter call in the trace, and the ledger
file unchanged. -/
theorem second_run_idempotent
    (cfg : Config) (l0 : List String) (pages1 pages2 : List PageResult)
    (orc1 orc2 : Nat → ProjectOracle) (ps : List Project) (st1 : RunState)
    (hg1 : get_gitlab_projects pages1 = some ps)
    (hg2 : get_gitlab_projects pages2 = some ps)
    (hm1 : migrateMain cfg true l0 pages1 orc1 = .completed st1)
    (hfail : st1.failed = [])
    (hclean : ∀ p ∈ ps, pyStrip (p.path ++ "\n") = p.path) :
    migrateMain cfg true st1.ledgerFile pages2 orc2 = .completed
      { ledgerFile := st1.ledgerFile, succeeded := 0, failed := [], skipped := ps.length,
        events := ps.map (fun p => Event.skip p.path) } := by
  simp only [migrateMain, hg1, Bool.not_true, Bool.false_eq_true, if_false] at hm1
  by_cases hem : ps.isEmpty
  · simp [hem] at hm1
  · simp only [hem, Bool.false_eq_true, if_false] at hm1
    rcases hr1 : runLoop cfg (load_completed_migrations l0) ps orc1
        { ledgerFile := l0, succeeded := 0, failed := [], skipped := 0, events := [] }
      with e | st' <;> simp only [hr1] at hm1
    · rcases e with ⟨k, stE⟩
      cases hm1
    · simp only [MainResult.completed.injEq] at hm1
      subst hm1
      have hcov := runLoop_no_failures_covers cfg (load_completed_migrations l0) ps orc1
        _ st' hr1 (by simpa using hfail)
      have hmem : ∀ p ∈ ps, p.path ∈ load_completed_migrations st'.ledgerFile := by
        intro p hp
        rcases hcov p hp with hin | hin
        · obtain ⟨d, -, hl, -, -⟩ := runLoop_trace cfg (load_completed_migrations l0) ps orc1
            { ledgerFile := l0, succeeded := 0, failed := [], skipped := 0, events := [] }
          rw [hr1] at hl
          simp only [finalState] at hl
          rw [hl]
          unfold load_completed_migrations at hin ⊢
          rw [List.map_append]
          exact List.mem_append_left _ hin
        · unfold load_completed_migrations
          exact List.mem_map.mpr ⟨p.path ++ "\n", hin, hclean p hp⟩
      simp only [migrateMain, hg2, Bool.not_true, Bool.false_eq_true, if_false, hem]
      rw [runLoop_all_skip cfg (load_completed_migrations st'.ledgerFile) ps orc2
        { ledgerFile := st'.ledgerFile, succeeded := 0, failed := [], skipped := 0, events := [] }
        hmem]
      simp

/-- Witness for `second_run_idempotent`: after the one-project
all-success run, a second identical enumeration is fully skipped. -/
theorem second_run_idempotent_witness :
    migrateMain cfgSample true stAlphaOk.ledgerFile [.page [pAlpha]] (fun _ => oracleAllOk)
      = .completed { ledgerFile := stAlphaOk.ledgerFile, succeeded := 0, failed := [],
                     skipped := 1, events := [.skip "alpha"] } := by
  have h := second_run_idempotent cfgSample [] [.page [pAlpha]] [.page [pAlpha]]
    (fun _ => oracleAllOk) (fun _ => oracleAllOk) [pAlpha] stAlphaOk
    (by decide) (by decide) (by decide) (by decide) (by decide)
  simpa [pAlpha] using h

/-- Claim C4, counterexample. A clone failure that leaves the target
directory behind is a failure path on which `transfer_repository` returns
without removing the working area: the claim "the local working area is
removed ... on every failure path (clone failure, ...)" is false. -/
theorem transfer_clone_failure_leaks_dir :
    (transfer_repository cfgSample "alpha" "git@gitlab.example.com:u/alpha.git"
        "https://github.com/user/alpha.git" false
        { cloneOk := false, cloneLeavesDir := true, filterOk := true, setUrlOk := true,
          pushAllOk := true, pushTagsOk := true }).success = false ∧
    (transfer_repository cfgSample "alpha" "git@gitlab.example.com:u/alpha.git"
        "https://github.com/user/alpha.git" false
        { cloneOk := false, cloneLeavesDir := true, filterOk := true, setUrlOk := true,
          pushAllOk := true, pushTagsOk := true }).dirExists = true := by
  decide

/-- Claim C4, amended. Any pre-existing working area is forcibly removed
before cloning, and once the clone has succeeded the working area is
removed before return on the success path and on the filter-failure and
push-failure paths; on a clone failure the function returns without
removing anything, so whatever the failed clone left behind persists
until the next attempt's pre-clean. -/
theorem transfer_cleanup_amended (cfg : Config) (n su gu : String) (pre : Bool)
    (o : TransferOracle) :
    (transfer_repository cfg n su gu pre o).preRemoved = pre ∧
    (o.cloneOk = true → (transfer_repository cfg n su gu pre o).dirExists = false) ∧
    (o.cloneOk = false →
      (transfer_repository cfg n su gu pre o).success = false ∧
      (transfer_repository cfg n su gu pre o).dirExists = o.cloneLeavesDir) := by
  obtain ⟨c, l, f, s, pa, pt⟩ := o
  cases c <;> cases f <;> cases s <;> cases pa <;> cases pt <;>
    simp [transfer_repository]

/-- Witness for `transfer_cleanup_amended` at concrete inputs covering
both the clone-success and the clone-failure hypotheses. -/
theorem transfer_cleanup_amended_witness :
    (transfer_repository cfgSample "alpha" "s" "d" true transferAllOk).preRemoved = true ∧
    (transfer_repository cfgSample "alpha" "s" "d" true transferAllOk).dirExists = false ∧
    (transfer_repository cfgSample "alpha" "s" "d" false
        { cloneOk := false, cloneLeavesDir := true, filterOk := true, setUrlOk := true,
          pushAllOk := true, pushTagsOk := true }).success = false ∧
    (transfer_repository cfgSample "alpha" "s" "d" false
        { cloneOk := false, cloneLeavesDir := true, filterOk := true, setUrlOk := true,
          pushAllOk := true, pushTagsOk := true }).dirExists = true := by
  refine ⟨(transfer_cleanup_amended cfgSample "alpha" "s" "d" true transferAllOk).1,
    (transfer_cleanup_amended cfgSample "alpha" "s" "d" true transferAllOk).2.1 (by decide),
    ?_, ?_⟩
  · exact ((transfer_cleanup_amended cfgSample "alpha" "s" "d" false
      { cloneOk := false, cloneLeavesDir := true, filterOk := true, setUrlOk := true,
        pushAllOk := true, pushTagsOk := true }).2.2 (by decide)).1
  · exact ((transfer_cleanup_amended cfgSample "alpha" "s" "d" false
      { cloneOk := false, cloneLeavesDir := true, filterOk := true, setUrlOk := true,
        pushAllOk := true, pushTagsOk := true }).2.2 (by decide)).2

/-- Claim C5, counterexample. A probe transport error (the GET of line 75
raising) on the first of two projects aborts the whole batch: the project
is not recorded as Failed, the second project is never touched, and no
summary is produced — contradicting "a probe transport error ... causes
only that one project to be recorded as Failed; it never aborts the
batch". -/
theorem probe_exception_aborts_batch :
    migrateMain cfgSample true [] [.page [pAlpha, pBeta]] (fun _ => oracleProbeExc)
      = .crashed .probeException
          { ledgerFile := [], succeeded := 0, failed := [], skipped := 0,
            events := [.resolveCall "alpha"] } := by
  decide

/-- Claim C5, amended. Probe/creation failures that `create_github_repo`
itself returns (non-200/404 probe status, creation POST exception or
error status) make only that project Failed and the loop continues with
the remaining projects; but a probe transport error escapes uncaught and
aborts the batch at that project. -/
theorem resolver_failure_handling (cfg : Config) (completed : List String) (p : Project)
    (rest : List Project) (orc : Nat → ProjectOracle) (st : RunState)
    (hskip : p.path ∉ completed) :
    (create_github_repo (orc 0).probe (orc 0).create = .failed →
      runLoop cfg completed (p :: rest) orc st =
        runLoop cfg completed rest (fun i => orc (i + 1))
          { st with failed := st.failed ++ [p.path],
                    events := st.events ++ [.resolveCall p.path] }) ∧
    ((orc 0).probe.exc = true →
      runLoop cfg completed (p :: rest) orc st =
        .error (.probeException, { st with events := st.events ++ [.resolveCall p.path] })) := by
  have hc : completed.contains p.path = false := by simp [hskip]
  constructor
  · intro hcr
    simp only [runLoop, processProject, hc, Bool.false_eq_true, if_false, hcr]
  · intro hexc
    have hcr : create_github_repo (orc 0).probe (orc 0).create = .uncaughtException := by
      simp [create_github_repo, hexc]
    simp only [runLoop, processProject, hc, Bool.false_eq_true, if_false, hcr]

/-- Witness for `resolver_failure_handling`: a 401 probe records the
project as Failed and continues; a probe exception crashes. -/
theorem resolver_failure_handling_witness :
    (runLoop cfgSample [] [pAlpha] (fun _ => oracleProbe401)
        { ledgerFile := [], succeeded := 0, failed := [], skipped := 0, events := [] }
      = runLoop cfgSample [] [] (fun _ => oracleProbe401)
          { ledgerFile := [], succeeded := 0, failed := ["alpha"], skipped := 0,
            events := [.resolveCall "alpha"] }) ∧
    (runLoop cfgSample [] [pAlpha] (fun _ => oracleProbeExc)
        { ledgerFile := [], succeeded := 0, failed := [], skipped := 0, events := [] }
      = .error (.probeException,
          { ledgerFile := [], succeeded := 0, failed := [], skipped := 0,
            events := [.resolveCall "alpha"] })) := by
  have h1 := (resolver_failure_handling cfgSample [] pAlpha [] (fun _ => oracleProbe401)
    { ledgerFile := [], succeeded := 0, failed := [], skipped := 0, events := [] }
    (by simp)).1 (by decide)
  have h2 := (resolver_failure_handling cfgSample [] pAlpha [] (fun _ => oracleProbeExc)
    { ledgerFile := [], succeeded := 0, failed := [], skipped := 0, events := [] }
    (by simp)).2 (by decide)
  constructor
  · simpa [pAlpha] using h1
  · simpa [pAlpha] using h2

/-- Claim C6, counterexample. A creation-time "name already taken" failure
(probe 404, then POST answered 422) is returned as a plain failure: the
project is recorded as Failed with no transfer attempted — there is no
`existed=true` recovery and no locator constructed from the naming
convention. -/
theorem create_conflict_fails_project :
    create_github_repo { exc := false, status := 404, cloneUrl := "" }
        { exc := false, status := 422, cloneUrl := "https://github.com/user/alpha.git" }
      = .failed ∧
    migrateMain cfgSample true [] [.page [pAlpha]] (fun _ => oracleCreate422)
      = .completed { ledgerFile := [], succeeded := 0, failed := ["alpha"], skipped := 0,
                     events := [.resolveCall "alpha"] } := by
  decide

/-- Claim C6, amended. A creation request that fails after a 404 probe —
including the name-already-taken case, which reaches the script as an
error status raised by `raise_for_status` — is handled like any other
creation failure: the resolver yields no locator and the project is
recorded as Failed. -/
theorem create_conflict_amended (probe : ProbeResult) (create : CreateResult)
    (hexc : probe.exc = false) (h404 : probe.status = 404)
    (hcexc : create.exc = false) (hconf : 400 ≤ create.status) :
    create_github_repo probe create = .failed := by
  simp [create_github_repo, hexc, h404, hcexc, hconf]

/-- Witness for `create_conflict_amended` at the 422 conflict status. -/
theorem create_conflict_amended_witness :
    create_github_repo { exc := false, status := 404, cloneUrl := "" }
      { exc := false, status := 422, cloneUrl := "u" } = .failed :=
  create_conflict_amended
    { exc := false, status := 404, cloneUrl := "" }
    { exc := false, status := 422, cloneUrl := "u" }
    rfl rfl rfl (by decide)

/-- Claim C7, counterexample. Under every configuration (and every input
and subprocess outcome) the transporter's command trace contains no
mirror-form clone or push: no configuration selects the full-mirror
strategy, refuting "for some configuration the transfer performs this
mirror strategy". -/
theorem no_mirror_strategy_exists :
    (fun (cfg : Config) (n su gu : String) (pre : Bool) (o : TransferOracle) =>
        usesMirror (transfer_repository cfg n su gu pre o).cmds)
      = (fun _ _ _ _ _ _ => false) := by
  funext cfg n su gu pre o
  obtain ⟨c, l, f, s, pa, pt⟩ := o
  cases c <;> cases f <;> cases s <;> cases pa <;> cases pt <;>
    simp [transfer_repository, usesMirror]

/-- Claim C7, amended. The transporter implements exactly one strategy —
filtered clone, history rewrite with the configured size threshold, then
explicit push of all branches and all tags — for every configuration: the
command trace never contains a mirror operation, and the all-success
trace is precisely the filtered sequence. -/
theorem single_filtered_strategy (cfg : Config) (n su gu : String) (pre : Bool)
    (o : TransferOracle) (lv : Bool) :
    usesMirror (transfer_repository cfg n su gu pre o).cmds = false ∧
    (transfer_repository cfg n su gu pre
        { cloneOk := true, cloneLeavesDir := lv, filterOk := true, setUrlOk := true,
          pushAllOk := true, pushTagsOk := true }).success = true ∧
    (transfer_repository cfg n su gu pre
        { cloneOk := true, cloneLeavesDir := lv, filterOk := true, setUrlOk := true,
          pushAllOk := true, pushTagsOk := true }).cmds =
      [GitCmd.clone su n, GitCmd.filterRepo (toString cfg.maxFileSizeMB ++ "M"),
       GitCmd.remoteSetUrl (authenticatedGithubUrl cfg gu), GitCmd.pushAll,
       GitCmd.pushTags] := by
  refine ⟨?_, by simp [transfer_repository], by simp [transfer_repository]⟩
  obtain ⟨c, l, f, s, pa, pt⟩ := o
  cases c <;> cases f <;> cases s <;> cases pa <;> cases pt <;>
    simp [transfer_repository, usesMirror]

/-- Claim C8, counterexample. With two enumerated projects, a ledger-append
failure after the first project's successful transfer aborts the run: the
succeeded counter was already incremented but the name is not in the
ledger file, the second project is never processed, and no summary is
produced — contradicting "it never aborts the batch ... still reported as
succeeded in that run's summary". -/
theorem ledger_write_failure_aborts :
    migrateMain cfgSample true [] [.page [pAlpha, pBeta]] (fun _ => oracleLedgerFail)
      = .crashed .ledgerWriteError
          { ledgerFile := [], succeeded := 1, failed := [], skipped := 0,
            events := [.resolveCall "alpha", .transferCall "alpha" true] } := by
  decide

/-- Claim C8, amended. A ledger-append failure after a successful transfer
leaves the project unrecorded in the ledger file; the in-memory succeeded
counter has already been incremented, but the error escapes uncaught and
aborts the batch at that project — remaining projects are not processed
and no summary is reported. -/
theorem ledger_write_failure_amended (cfg : Config) (completed : List String) (p : Project)
    (rest : List Project) (orc : Nat → ProjectOracle) (st : RunState) (u : String)
    (hskip : p.path ∉ completed)
    (hcr : create_github_repo (orc 0).probe (orc 0).create = .url u)
    (hts : (transfer_repository cfg p.path p.sshUrlToRepo u (orc 0).preExistingDir
        (orc 0).transfer).success = true)
    (hao : (orc 0).appendOk = false) :
    runLoop cfg completed (p :: rest) orc st =
      .error (.ledgerWriteError,
        { st with succeeded := st.succeeded + 1,
                  events := st.events ++ [.resolveCall p.path, .transferCall p.path true] }) := by
  have hc : completed.contains p.path = false := by simp [hskip]
  simp only [runLoop, processProject, hc, Bool.false_eq_true, if_false, hcr, hts, hao, if_true]

/-- Witness for `ledger_write_failure_amended` on the concrete
one-project run whose append fails. -/
theorem ledger_write_failure_amended_witness :
    runLoop cfgSample [] [pAlpha] (fun _ => oracleLedgerFail)
        { ledgerFile := [], succeeded := 0, failed := [], skipped := 0, events := [] }
      = .error (.ledgerWriteError,
          { ledgerFile := [], succeeded := 1, failed := [], skipped := 0,
            events := [.resolveCall "alpha", .transferCall "alpha" true] }) := by
  have h := ledger_write_failure_amended cfgSample [] pAlpha [] (fun _ => oracleLedgerFail)
    { ledgerFile := [], succeeded := 0, failed := [], skipped := 0, events := [] }
    "https://github.com/user/alpha.git" (by simp) (by decide) (by decide) (by decide)
  simpa [pAlpha] using h

/-- The boolean outcome of a transfer depends only on the subprocess
results, never on the configuration (which only shapes command strings). -/
theorem transfer_success_config_independent (cfg cfg' : Config) (n su gu : String)
    (pre : Bool) (o : TransferOracle) :
    (transfer_repository cfg n su gu pre o).success
      = (transfer_repository cfg' n su gu pre o).success := by
  obtain ⟨c, l, f, s, pa, pt⟩ := o
  cases c <;> cases f <;> cases s <;> cases pa <;> cases pt <;> rfl

/-- One loop iteration never branches on any configuration value. -/
theorem processProject_config_independent (cfg cfg' : Config) (completed : List String)
    (p : Project) (o : ProjectOracle) (st : RunState) :
    processProject cfg completed p o st = processProject cfg' completed p o st := by
  unfold processProject
  by_cases hc : p.path ∈ completed
  · simp [hc]
  · rcases hcr : create_github_repo o.probe o.create with _ | u | _ <;> simp only [hc, hcr]
    rw [transfer_success_config_independent cfg cfg' p.path p.sshUrlToRepo u
      o.preExistingDir o.transfer]

/-- The whole loop never branches on any configuration value. -/
theorem runLoop_config_independent (cfg cfg' : Config) (completed : List String) :
    ∀ (ps : List Project) (orc : Nat → ProjectOracle) (st : RunState),
    runLoop cfg completed ps orc st = runLoop cfg' completed ps orc st := by
  intro ps
  induction ps with
  | nil => intro orc st; rfl
  | cons p rest ih =>
    intro orc st
    simp only [runLoop]
    rw [processProject_config_independent cfg cfg' completed p (orc 0) st]
    rcases h : processProject cfg' completed p (orc 0) st with e | st₁ <;> simp only [h]
    exact ih (fun i => orc (i + 1)) st₁

/-- Claim C9, amended. No configuration value is validated for presence —
the only startup check is for the `git-filter-repo` tool — and the run's
entire observable result (exit branch, counters, failed names, ledger
writes, event trace) is identical under any two configurations, in
particular under a fully absent one: missing values never stop the
program before projects are processed, they merely surface through the
external calls. -/
theorem config_never_validated (cfg cfg' : Config) (fi : Bool) (l0 : List String)
    (pages : List PageResult) (orc : Nat → ProjectOracle) :
    migrateMain cfg fi l0 pages orc = migrateMain cfg' fi l0 pages orc := by
  cases fi
  · rfl
  · unfold migrateMain
    simp only [runLoop_config_independent cfg cfg']

/-- Claim C9, counterexample. With every required configuration value
absent (`os.getenv` returned `None` for all four) the program still
enumerates, probes the destination for the project, and records it as a
per-project failure in a normal summary — it does not stop as a fatal
startup condition before any project is processed. -/
theorem missing_config_still_processes :
    migrateMain cfgMissing true [] [.page [pAlpha]] (fun _ => oracleProbe401)
      = .completed { ledgerFile := [], succeeded := 0, failed := ["alpha"], skipped := 0,
                     events := [.resolveCall "alpha"] } := by
  decide

/-- Claim C10. A successful-but-empty enumeration takes the same exit as a
listing failure (`if not gitlab_projects`): the two runs are equal, the
result is the no-projects exit when the tool check passed, and the
carried state is untouched — no project processed, no ledger write, no
summary. -/
theorem empty_listing_like_error (cfg : Config) (fi : Bool) (l0 : List String)
    (orc : Nat → ProjectOracle) (pages pagesErr : List PageResult)
    (hempty : get_gitlab_projects pages = some [])
    (herr : get_gitlab_projects pagesErr = none) :
    migrateMain cfg fi l0 pages orc = migrateMain cfg fi l0 pagesErr orc ∧
    (fi = true → migrateMain cfg fi l0 pages orc = .exitedNoProjects) ∧
    resultState l0 (migrateMain cfg fi l0 pages orc)
      = { ledgerFile := l0, succeeded := 0, failed := [], skipped := 0, events := [] } := by
  cases fi
  · refine ⟨rfl, ?_, ?_⟩
    · intro h
      cases h
    · simp [migrateMain, resultState]
  · refine ⟨?_, ?_, ?_⟩ <;> simp [migrateMain, hempty, herr, resultState]

/-- Witness for `empty_listing_like_error`: one empty page vs a failing
first page. -/
theorem empty_listing_like_error_witness :
    migrateMain cfgSample true [] [.page []] (fun _ => oracleAllOk)
      = migrateMain cfgSample true [] [.err] (fun _ => oracleAllOk) ∧
    migrateMain cfgSample true [] [.page []] (fun _ => oracleAllOk) = .exitedNoProjects := by
  have h := empty_listing_like_error cfgSample true [] (fun _ => oracleAllOk) [.page []] [.err]
    (by decide) (by decide)
  exact ⟨h.1, h.2.1 rfl⟩
